import Mathlib

/-!
Verification of the pyvoog model base layer (`pyvoog/model.py`) and the
`Endpoint` record (`pyvoog/router/endpoint.py`) against its specification.

The Python code is shallowly embedded: Python dicts become association
lists (`List (String × _)`) with insertion-order update semantics, raised
exceptions become `Except` errors, and the external libraries (SQLAlchemy,
marshmallow, the `Validatable` mixin from `pyvoog.validatable`) are
abstracted at their call boundary: a marshmallow schema validation is a
parameter `AttrDict → ErrDict`, and the outcome of a `Validatable.is_valid`
call on the instance under consideration is recorded as data on the
embedded column / virtual attribute.
-/

namespace Pyvoog

/-- A Python value as stored in JSON columns, attribute dicts and filter
dicts.  The claims are parametric in the values, so a small closed universe
suffices. -/
inductive PyValue where
  | pyStr (s : String)
  | pyInt (n : Int)
  | pyBool (b : Bool)
  | pyNone
  deriving DecidableEq, Repr

/-- A Python exception relevant to the embedded code paths. -/
inductive PyErr where
  | keyError
  | typeError
  | attributeError
  deriving DecidableEq, Repr

/-- The value of a JSON column: a Python dict. -/
abbrev JsonDict := List (String × PyValue)

/-- A marshmallow errors dict for a flat schema: field name to messages. -/
abbrev ErrDict := List (String × List String)

/-- The attribute dict assembled by `Model._get_attr_dict`. -/
abbrev AttrDict := List (String × PyValue)

/-- Python dict lookup (`d[k]` / `k in d`), with decidable string keys. -/
def alookup {α : Type} : List (String × α) → String → Option α
  | [], _ => none
  | p :: rest, k => if p.1 = k then some p.2 else alookup rest k

/-- Python dict assignment `d[k] = v`: replace in place if the key exists
(insertion order is kept), append otherwise. -/
def dictUpdate {α : Type} (d : List (String × α)) (k : String) (v : α) :
    List (String × α) :=
  match alookup d k with
  | some _ => d.map (fun p => if p.1 = k then (k, v) else p)
  | none => d ++ [(k, v)]

/-- The SQLAlchemy column type, as far as `SchemaGenerator` dispatches on
it: `Boolean`, `Integer`, `String` (with its optional declared length) or
anything else. -/
inductive ColType where
  | boolean
  | integer
  | string (length : Option Nat)
  | other
  deriving DecidableEq, Repr

/-- A reflected SQLAlchemy column of a model, with the data the embedded
code reads from it.  `isSchemaless` is `isinstance(c, SchemalessColumn)`.
`validatableResult` abstracts the external `Validatable` mixin:
`none` means the column is not a `Validatable`; `some r` means it is, and
`is_valid` on the instance under consideration passes (`r = none`) or
raises a `ValidationError` carrying messages `msgs` (`r = some msgs`). -/
structure Col where
  name : String
  ctype : ColType
  nullable : Bool
  isSchemaless : Bool
  validatableResult : Option (Option (List String))
  deriving DecidableEq, Repr

/-- A marshmallow field of the generated schema, recording the constructor
and keyword arguments `SchemaGenerator` passes: the field class
(`fields.Boolean` / `fields.Integer` / `fields.Str` with its optional
`validate.Length(max=...)` validator / generic `fields.Field`) and the
`allow_none` / `required` keyword arguments (marshmallow defaults both to
`False` when not passed). -/
inductive FieldKind where
  | boolean
  | integer
  | str (maxLength : Option Nat)
  | generic
  deriving DecidableEq, Repr

structure SchemaField where
  kind : FieldKind
  allow_none : Bool
  required : Bool
  deriving DecidableEq, Repr

/-- `VirtualAttribute`: a descriptor routing an attribute to a JSON column.
`attr_name` is unset (`none`) until `ModelMetaclass._set_va_attr_names`
binds it; reading it while unset raises `AttributeError` in Python.
`default` is `none` for the `Undefined` sentinel.  `isValidResult`
abstracts the inherited `Validatable.is_valid` outcome on the instance
under consideration (a `VirtualAttribute` is always a `Validatable`):
`none` means the check passes, `some msgs` that it raises a
`ValidationError` carrying `msgs`. -/
structure VirtualAttribute where
  attr_name : Option String
  default : Option PyValue
  schemaless_field : String
  isValidResult : Option (List String)
  deriving DecidableEq, Repr

/-- The `name` property: returns `attr_name` (raises `AttributeError` when
unset, modelled by `none`). -/
def VirtualAttribute.name (va : VirtualAttribute) : Option String :=
  va.attr_name

/-- `VirtualAttribute.__get__`: `getattr(obj, self.schemaless_field)[self.attr_name]`,
catching `KeyError` and `TypeError` (the latter arises from subscripting
`None`) and returning `default` instead when one was supplied.  The
instance is represented by its JSON columns, `jsonFields : String →
Option JsonDict`, a column's value being `none` for Python `None`.
An unset `attr_name` raises `AttributeError`, which the handler does not
catch. -/
def VirtualAttribute.get (va : VirtualAttribute)
    (jsonFields : String → Option JsonDict) : Except PyErr PyValue :=
  match va.attr_name with
  | none => .error .attributeError
  | some n =>
    match jsonFields va.schemaless_field with
    | none =>
      match va.default with
      | some d => .ok d
      | none => .error .typeError
    | some dict =>
      match alookup dict n with
      | some v => .ok v
      | none =>
        match va.default with
        | some d => .ok d
        | none => .error .keyError
/-- `VirtualAttribute.__set__`: initializes `obj.schemaless` to `{}` when it
is `None`, then writes `obj.schemaless[self.attr_name] = value`.  Note the
source hardcodes the attribute `schemaless` here instead of using
`self.schemaless_field`. -/
def VirtualAttribute.set (va : VirtualAttribute)
    (jsonFields : String → Option JsonDict) (v : PyValue) :
    Except PyErr (String → Option JsonDict) :=
  let jf :=
    match jsonFields "schemaless" with
    | none => fun s => if s = "schemaless" then some [] else jsonFields s
    | some _ => jsonFields
  match va.attr_name with
  | none => .error .attributeError
  | some n =>
    .ok fun s =>
      if s = "schemaless" then
        match jf "schemaless" with
        | some d => some (dictUpdate d n v)
        | none => some (dictUpdate [] n v)
      else jf s

/-- Assigning and then reading a virtual attribute on the same instance. -/
def VirtualAttribute.setThenGet (va : VirtualAttribute)
    (jsonFields : String → Option JsonDict) (v : PyValue) :
    Except PyErr PyValue := do
  let jf ← va.set jsonFields v
  va.get jf

/-- `SchemaGenerator.skipped_fields`. -/
def skipped_fields : List String := ["id"]

/-- `SchemaGenerator._get_column_schema`: the (at most one) schema entry a
column contributes.  A column named in `skipped_fields` or that is a
`SchemalessColumn` contributes nothing; otherwise exactly one of
`allow_none=True` (nullable) and `required=True` (non-nullable) is passed,
the field class follows the column type, and a `String` column with a
declared length gets a `validate.Length(max=length)` validator. -/
def _get_column_schema (c : Col) : List (String × SchemaField) :=
  if c.name ∈ skipped_fields ∨ c.isSchemaless = true then []
  else
    match c.ctype with
    | .boolean => [(c.name, ⟨.boolean, c.nullable, !c.nullable⟩)]
    | .integer => [(c.name, ⟨.integer, c.nullable, !c.nullable⟩)]
    | .string len => [(c.name, ⟨.str len, c.nullable, !c.nullable⟩)]
    | .other => [(c.name, ⟨.generic, c.nullable, !c.nullable⟩)]

/-- The `fields.Field(allow_none=True)` entry generated for each virtual
attribute. -/
def vattrField : SchemaField := ⟨.generic, true, false⟩

/-- A model class after `ModelMetaclass` has run: its reflected columns
(`inspect(model).c`) and the `VirtualAttribute` entries of its class dict
(`key ↦ descriptor`, in dict order). -/
structure ModelClass where
  columns : List Col
  vattrs : List (String × VirtualAttribute)

/-- The `vattr.name` reads performed while iterating the class's virtual
attributes; the first unset name raises `AttributeError`. -/
def vattrNames : List (String × VirtualAttribute) → Except PyErr (List String)
  | [] => .ok []
  | p :: rest =>
    match p.2.attr_name with
    | none => .error .attributeError
    | some n =>
      match vattrNames rest with
      | .error e => .error e
      | .ok ns => .ok (n :: ns)

/-- The first loop of `SchemaGenerator.generate_schema`: fold every
column's contribution into `schema_dict` (a Python dict, hence
`dictUpdate`). -/
def columnsSchema (cols : List Col) : List (String × SchemaField) :=
  cols.foldl
    (fun sd c => (_get_column_schema c).foldl (fun sd p => dictUpdate sd p.1 p.2) sd) []

/-- `SchemaGenerator.generate_schema`: fold every column's contribution
into `schema_dict`, then add a generic `allow_none` field per virtual
attribute under its `name`. -/
def generate_schema (model : ModelClass) : Except PyErr (List (String × SchemaField)) :=
  let base := columnsSchema model.columns
  match vattrNames model.vattrs with
  | .error e => .error e
  | .ok ns => .ok (ns.foldl (fun sd n => dictUpdate sd n vattrField) base)

/-- A model instance: its class, its plain column values and its JSON
column values (`none` for a column holding Python `None`). -/
structure ModelInstance where
  cls : ModelClass
  columnValues : String → PyValue
  jsonFields : String → Option JsonDict

/-- Reading attribute `k` on an instance: a `VirtualAttribute` bound under
`k` is a data descriptor and takes precedence, otherwise the mapped column
value is returned. -/
def ModelInstance.getattr (m : ModelInstance) (k : String) : Except PyErr PyValue :=
  match m.cls.vattrs.find? (fun p => p.1 = k) with
  | some p => p.2.get m.jsonFields
  | none => .ok (m.columnValues k)

/-- The dict comprehension of `Model._get_attr_dict`: read every schema
field from the instance, in schema order; the first raised exception
propagates. -/
def readAttrs (m : ModelInstance) : List (String × SchemaField) → Except PyErr AttrDict
  | [] => .ok []
  | p :: rest =>
    match m.getattr p.1 with
    | .error e => .error e
    | .ok v =>
      match readAttrs m rest with
      | .error e => .error e
      | .ok tail => .ok ((p.1, v) :: tail)

/-- `Model._get_attr_dict`. -/
def ModelInstance.getAttrDict (m : ModelInstance) : Except PyErr AttrDict :=
  match generate_schema m.cls with
  | .error e => .error e
  | .ok sd => readAttrs m sd

/-- The entries `Model._run_attr_validations` yields for the columns: a
`Validatable` column whose `is_valid` raises contributes
`(c.name, e.messages)`. -/
def columnValidations (cols : List Col) : List (String × List String) :=
  cols.filterMap fun c =>
    match c.validatableResult with
    | some (some msgs) => some (c.name, msgs)
    | _ => none

/-- The entries `Model._run_attr_validations` yields for the virtual
attributes (every `VirtualAttribute` is a `Validatable`); yielding an
entry reads `c.name`, so an unset name raises `AttributeError` there. -/
def vattrValidations : List (String × VirtualAttribute) → Except PyErr (List (String × List String))
  | [] => .ok []
  | p :: rest =>
    match p.2.isValidResult with
    | none => vattrValidations rest
    | some msgs =>
      match p.2.attr_name with
      | none => .error .attributeError
      | some n =>
        match vattrValidations rest with
        | .error e => .error e
        | .ok tail => .ok ((n, msgs) :: tail)

/-- `Model._run_attr_validations`: iterate `chain(columns, vattrs)` and
yield an `(attribute name, messages)` pair per failing `Validatable`. -/
def ModelInstance.runAttrValidations (m : ModelInstance) :
    Except PyErr (List (String × List String)) :=
  match vattrValidations m.cls.vattrs with
  | .error e => .error e
  | .ok vres => .ok (columnValidations m.cls.columns ++ vres)

/-- One step of `always_merger.merge(errors, {attr_name: messages})` from
`deepmerge`: an existing key has its message lists concatenated, a new key
is appended. -/
def deepMergeEntry (errors : ErrDict) (k : String) (msgs : List String) : ErrDict :=
  match alookup errors k with
  | some _ => errors.map fun p => if p.1 = k then (p.1, p.2 ++ msgs) else p
  | none => errors ++ [(k, msgs)]

/-- The merge loop of `Model.validate`. -/
def mergeValidations (errors : ErrDict) (checks : List (String × List String)) : ErrDict :=
  checks.foldl (fun es p => deepMergeEntry es p.1 p.2) errors

/-- An exception escaping `Model.validate`: either a Python error raised
while assembling attributes or enumerating validations, or the
`ValidationError(errors, None, attrs)` raised on a non-empty merged errors
dict. -/
inductive PyException where
  | pyErr (e : PyErr)
  | validationError (errors : ErrDict) (attrs : AttrDict)
  deriving DecidableEq, Repr

/-- `Model.validate`: assemble the attribute dict, validate it against the
generated schema (`schemaValidate` abstracts marshmallow's
`schema.validate`), merge in the per-attribute validation failures, and
raise `ValidationError` exactly when the merged errors dict is non-empty. -/
def ModelInstance.validate (m : ModelInstance) (schemaValidate : AttrDict → ErrDict) :
    Except PyException Unit :=
  match m.getAttrDict with
  | .error e => .error (.pyErr e)
  | .ok attrs =>
    match m.runAttrValidations with
    | .error e => .error (.pyErr e)
    | .ok checks =>
      let errors := mergeValidations (schemaValidate attrs) checks
      if errors.isEmpty then .ok () else .error (.validationError errors attrs)

/-- `Model.as_dict`: `{"id": self.id, **self._get_attr_dict()}`. -/
def ModelInstance.asDict (m : ModelInstance) : Except PyErr AttrDict :=
  match m.getattr "id" with
  | .error e => .error e
  | .ok idv =>
    match m.getAttrDict with
    | .error e => .error e
    | .ok attrs => .ok (attrs.foldl (fun d p => dictUpdate d p.1 p.2) [("id", idv)])

/-- An entry of a class dict as `ModelMetaclass._set_va_attr_names`
inspects it: a `VirtualAttribute` descriptor or anything else. -/
inductive ClassDictEntry where
  | va (v : VirtualAttribute)
  | other
  deriving DecidableEq, Repr

/-- `VirtualAttribute._set_attr_name`. -/
def VirtualAttribute.setAttrName (v : VirtualAttribute) (n : String) : VirtualAttribute :=
  { v with attr_name := some n }

/-- `k.startswith("_")`: the key's first character is an underscore. -/
def underscored (k : String) : Bool :=
  match k.data with
  | [] => false
  | c :: _ => c = '_'

/-- `ModelMetaclass._set_va_attr_names`: walk the class dict and attach
each key to the `VirtualAttribute` bound under it, skipping keys that
start with an underscore and values that are not `VirtualAttribute`s. -/
def setVaAttrNames (d : List (String × ClassDictEntry)) : List (String × ClassDictEntry) :=
  d.map fun p =>
    match p.2 with
    | .va v => if underscored p.1 then p else (p.1, .va (v.setAttrName p.1))
    | .other => p

/-- A Python `datetime`, reduced to what `UTCTimeStamp` inspects: its wall
clock reading (in minutes, on a single absolute scale) and its `tzinfo`
(`none` for a naive datetime, `some o` for a fixed UTC offset of `o`
minutes).  An aware datetime `⟨w, some o⟩` denotes the absolute instant
`w - o`; a naive one carries no instant of its own. -/
structure PyDateTime where
  wall : Int
  tz : Option Int
  deriving DecidableEq, Repr

/-- `value.astimezone(timezone.utc)`: a naive datetime is interpreted as
wall time in the system timezone (offset `localOffset`), an aware one
keeps its instant; the result is aware UTC. -/
def astimezoneUtc (localOffset : Int) (d : PyDateTime) : PyDateTime :=
  match d.tz with
  | none => ⟨d.wall - localOffset, some 0⟩
  | some o => ⟨d.wall - o, some 0⟩

/-- `UTCTimeStamp.process_bind_param`. -/
def process_bind_param (localOffset : Int) (value : PyDateTime) : PyDateTime :=
  astimezoneUtc localOffset value

/-- `UTCTimeStamp.process_result_value`: a naive stored value is marked as
already being UTC via `replace(tzinfo=timezone.utc)`, an aware one is
converted. -/
def process_result_value (localOffset : Int) (value : PyDateTime) : PyDateTime :=
  match value.tz with
  | none => ⟨value.wall, some 0⟩
  | some _ => astimezoneUtc localOffset value

/-- An SQLAlchemy select statement, as far as `get_scoped_query` builds
one. -/
inductive SAQuery where
  | selectModel (model : String)
  | selectFromArgs (args : List String) (model : String)
  | filterBy (q : SAQuery) (kwargs : List (String × PyValue))
  deriving DecidableEq, Repr

/-- A model class as `Model.get_scoped_query` sees it: its name and its
optional `default_scope`.  `default_scope` is documented as a callable
returning a dict of keyword filters; `some kw` records the dict the
callable returns (a defined callable is truthy), `none` the absent
attribute (`getattr` default `None`, which is falsy). -/
structure ScopedClass where
  name : String
  default_scope : Option (List (String × PyValue))
  deriving DecidableEq, Repr

/-- `Model.get_scoped_query`: `select(*args).select_from(cls)` when
positional arguments are passed, else `select(cls)`; then `filter_by` with
the dict returned by `default_scope` when the class defines one. -/
def get_scoped_query (cls : ScopedClass) (args : List String) : SAQuery :=
  let query := if args.isEmpty then SAQuery.selectModel cls.name
    else SAQuery.selectFromArgs args cls.name
  match cls.default_scope with
  | some kw => .filterBy query kw
  | none => query

/-- A timestamp column declaration as `_declare_timestamps` creates one:
`Column(UTCTimeStamp(), default=func.now())`, with `onupdate=func.now()`
on `updated_at` only. -/
structure TimestampCol where
  isUTCTimeStamp : Bool
  defaultIsNow : Bool
  onupdateIsNow : Bool
  deriving DecidableEq, Repr

/-- The `created_at` / `updated_at` class attributes (absent before the
metaclass adds them). -/
structure TimestampState where
  created_at : Option TimestampCol
  updated_at : Option TimestampCol
  deriving DecidableEq, Repr

/-- `ModelMetaclass._declare_timestamps`: return unchanged unless the
class's `include_timestamps` is truthy, otherwise declare both columns. -/
def _declare_timestamps (include_timestamps : Bool) (cls : TimestampState) : TimestampState :=
  if !include_timestamps then cls
  else
    { created_at := some ⟨true, true, false⟩,
      updated_at := some ⟨true, true, true⟩ }

/-- `Endpoint`: a plain data holder for a path, a controller action and
the supported HTTP verbs. -/
structure Endpoint where
  path : String
  action : String
  methods : List String
  deriving DecidableEq, Repr

/-- `Endpoint.__init__(path, action, methods=["GET"])`. -/
def Endpoint.init (path action : String) (methods : List String := ["GET"]) : Endpoint :=
  ⟨path, action, methods⟩

/-! ### Association-list helper lemmas -/

theorem alookup_nil {α : Type} (k : String) : alookup ([] : List (String × α)) k = none := rfl

theorem alookup_eq_none_iff {α : Type} (d : List (String × α)) (k : String) :
    alookup d k = none ↔ k ∉ d.map Prod.fst := by
  induction d with
  | nil => simp [alookup]
  | cons p rest ih =>
    by_cases h : p.1 = k
    · simp [alookup, h]
    · have h1 : alookup (p :: rest) k = alookup rest k := by simp [alookup, h]
      rw [h1, ih, List.map_cons]
      constructor
      · intro hn hmem
        rcases List.mem_cons.mp hmem with h2 | h2
        · exact h h2.symm
        · exact hn h2
      · intro hn hmem
        exact hn (List.mem_cons_of_mem _ hmem)

theorem alookup_append_right {α : Type} (d1 d2 : List (String × α)) (k : String)
    (h : alookup d1 k = none) : alookup (d1 ++ d2) k = alookup d2 k := by
  induction d1 with
  | nil => simp
  | cons p rest ih =>
    by_cases hp : p.1 = k
    · simp [alookup, hp] at h
    · simp only [alookup, hp] at h
      simp only [List.cons_append, alookup, hp, if_false]
      exact ih h

theorem alookup_of_nodup_mem {α : Type} (d : List (String × α)) (k : String) (v : α)
    (hnd : (d.map Prod.fst).Nodup) (hmem : (k, v) ∈ d) : alookup d k = some v := by
  induction d with
  | nil => cases hmem
  | cons p rest ih =>
    rcases List.mem_cons.mp hmem with heq | htail
    · rw [← heq]
      simp [alookup]
    · have hk : k ∈ rest.map Prod.fst :=
        List.mem_map.mpr ⟨(k, v), htail, rfl⟩
      have hp : p.1 ≠ k := by
        intro hx
        exact (List.nodup_cons.mp hnd).1 (hx ▸ hk)
      simp only [alookup, hp, if_false]
      exact ih (List.nodup_cons.mp hnd).2 htail

theorem alookup_append_left {α : Type} (d1 d2 : List (String × α)) (k : String) (v : α)
    (h : alookup d1 k = some v) : alookup (d1 ++ d2) k = some v := by
  induction d1 with
  | nil => simp [alookup] at h
  | cons p rest ih =>
    by_cases hp : p.1 = k
    · simp only [alookup, hp, if_true] at h
      simp [alookup, hp, h]
    · simp only [alookup, hp, if_false] at h
      simp only [List.cons_append, alookup, hp, if_false]
      exact ih h

theorem dictUpdate_of_alookup_none {α : Type} (d : List (String × α)) (k : String) (v : α)
    (h : alookup d k = none) : dictUpdate d k v = d ++ [(k, v)] := by
  unfold dictUpdate
  rw [h]

theorem mem_keys_dictUpdate_self {α : Type} (d : List (String × α)) (k : String) (v : α) :
    k ∈ (dictUpdate d k v).map Prod.fst := by
  unfold dictUpdate
  cases h : alookup d k with
  | none => simp
  | some w =>
    have hk : k ∈ d.map Prod.fst := by
      by_contra hx
      rw [(alookup_eq_none_iff d k).mpr hx] at h
      cases h
    rcases List.mem_map.mp hk with ⟨p, hp, hj⟩
    apply List.mem_map.mpr
    exact ⟨(k, v), List.mem_map.mpr ⟨p, hp, by simp [hj]⟩, rfl⟩

theorem mem_keys_dictUpdate_mono {α : Type} (d : List (String × α)) (j k : String) (v : α)
    (h : j ∈ d.map Prod.fst) : j ∈ (dictUpdate d k v).map Prod.fst := by
  unfold dictUpdate
  cases alookup d k with
  | none => simp only [List.map_append]; exact List.mem_append_left _ h
  | some w =>
    rcases List.mem_map.mp h with ⟨p, hp, hj⟩
    by_cases hpk : p.1 = k
    · apply List.mem_map.mpr
      exact ⟨(k, v), List.mem_map.mpr ⟨p, hp, by simp [hpk]⟩, by simp [← hj, hpk]⟩
    · apply List.mem_map.mpr
      exact ⟨p, List.mem_map.mpr ⟨p, hp, by simp [hpk]⟩, hj⟩

theorem mem_keys_foldl_dictUpdate_mono {α : Type} (ns : List String) (f : α)
    (base : List (String × α)) (j : String) (h : j ∈ base.map Prod.fst) :
    j ∈ ((ns.foldl (fun sd n => dictUpdate sd n f) base).map Prod.fst) := by
  induction ns generalizing base with
  | nil => exact h
  | cons n rest ih =>
    exact ih (dictUpdate base n f) (mem_keys_dictUpdate_mono base j n f h)

theorem mem_keys_foldl_dictUpdate {α : Type} (ns : List String) (f : α)
    (base : List (String × α)) (n : String) (h : n ∈ ns) :
    n ∈ ((ns.foldl (fun sd n => dictUpdate sd n f) base).map Prod.fst) := by
  induction ns generalizing base with
  | nil => cases h
  | cons n0 rest ih =>
    rcases List.mem_cons.mp h with heq | htail
    · subst heq
      exact mem_keys_foldl_dictUpdate_mono rest f (dictUpdate base n f) n
        (mem_keys_dictUpdate_self base n f)
    · exact ih (dictUpdate base n0 f) htail

theorem foldl_dictUpdate_append {α : Type} (entries acc : List (String × α))
    (hnd : (entries.map Prod.fst).Nodup)
    (hfresh : ∀ p ∈ entries, alookup acc p.1 = none) :
    entries.foldl (fun d p => dictUpdate d p.1 p.2) acc = acc ++ entries := by
  induction entries generalizing acc with
  | nil => simp
  | cons p rest ih =>
    have h1 : dictUpdate acc p.1 p.2 = acc ++ [(p.1, p.2)] :=
      dictUpdate_of_alookup_none acc p.1 p.2 (hfresh p (List.mem_cons_self p rest))
    have h2 : ∀ q ∈ rest, alookup (acc ++ [(p.1, p.2)]) q.1 = none := by
      intro q hq
      rw [alookup_append_right acc _ q.1 (hfresh q (List.mem_cons_of_mem p hq))]
      have hpq : p.1 ≠ q.1 := by
        intro hx
        exact (List.nodup_cons.mp hnd).1
          (hx ▸ List.mem_map.mpr ⟨q, hq, rfl⟩)
      simp [alookup, hpq]
    calc (p :: rest).foldl (fun d p => dictUpdate d p.1 p.2) acc
        = rest.foldl (fun d p => dictUpdate d p.1 p.2) (acc ++ [(p.1, p.2)]) := by
          rw [List.foldl_cons, h1]
      _ = (acc ++ [(p.1, p.2)]) ++ rest := ih _ (List.nodup_cons.mp hnd).2 h2
      _ = acc ++ (p :: rest) := by simp

/-! ### Claim theorems: timestamps, scoped queries, endpoint, metaclass -/

/-- Claim C5: every datetime crossing `UTCTimeStamp` comes out carrying the
UTC timezone: `process_bind_param` converts its argument to UTC, a naive
input being interpreted as system-local time, and `process_result_value`
converts an aware stored value to UTC and marks a naive stored value as
already being UTC. -/
theorem utc_timestamp_normalization (localOffset : Int) (d : PyDateTime) :
    (process_bind_param localOffset d).tz = some 0
  ∧ (process_bind_param localOffset d).wall
      = d.wall - (match d.tz with | none => localOffset | some o => o)
  ∧ (process_result_value localOffset d).tz = some 0
  ∧ (process_result_value localOffset d).wall
      = (match d.tz with | none => d.wall | some o => d.wall - o) := by
  rcases d with ⟨w, tz⟩
  cases tz <;>
    simp [process_bind_param, process_result_value, astimezoneUtc]

/-- Claim C6: `get_scoped_query` applies `filter_by` with the dict returned
by `default_scope` when the class defines one, returns an unfiltered select
otherwise, and forwards any positional arguments to `select` with the
model's table set via `select_from`. -/
theorem scoped_query_spec (cls : ScopedClass) (args : List String) :
    (cls.default_scope = none →
      get_scoped_query cls args =
        (if args.isEmpty then SAQuery.selectModel cls.name
          else SAQuery.selectFromArgs args cls.name))
  ∧ (∀ kw, cls.default_scope = some kw →
      get_scoped_query cls args =
        SAQuery.filterBy
          (if args.isEmpty then SAQuery.selectModel cls.name
            else SAQuery.selectFromArgs args cls.name) kw) := by
  constructor
  · intro h
    simp [get_scoped_query, h]
  · intro kw h
    simp [get_scoped_query, h]

theorem scoped_query_spec_witness :
    get_scoped_query ⟨"user", some [("account_id", .pyInt 1)]⟩ []
      = SAQuery.filterBy (SAQuery.selectModel "user") [("account_id", .pyInt 1)]
  ∧ get_scoped_query ⟨"thing", none⟩ ["id", "name"]
      = SAQuery.selectFromArgs ["id", "name"] "thing" := by
  refine ⟨?_, ?_⟩
  · exact (scoped_query_spec ⟨"user", some [("account_id", .pyInt 1)]⟩ []).2
      [("account_id", .pyInt 1)] rfl
  · exact (scoped_query_spec ⟨"thing", none⟩ ["id", "name"]).1 rfl

/-- Claim C7: the metaclass adds `created_at` and `updated_at` columns of
type `UTCTimeStamp` if and only if `include_timestamps` is truthy; both
default to the database's current time and `updated_at` is additionally
refreshed on update. -/
theorem declare_timestamps_spec (s : TimestampState) :
    _declare_timestamps true s
      = ⟨some ⟨true, true, false⟩, some ⟨true, true, true⟩⟩
  ∧ _declare_timestamps false s = s :=
  ⟨rfl, rfl⟩

/-- Claim C8: `Endpoint(path, action, methods)` stores its three arguments
unchanged, and omitting `methods` yields the single-verb list `["GET"]`. -/
theorem endpoint_spec (path action : String) (methods : List String) :
    (Endpoint.init path action methods).path = path
  ∧ (Endpoint.init path action methods).action = action
  ∧ (Endpoint.init path action methods).methods = methods
  ∧ Endpoint.init path action = ⟨path, action, ["GET"]⟩ :=
  ⟨rfl, rfl, rfl, rfl⟩

/-- Claim C9: reading an absent virtual attribute returns the constructor's
default when one was supplied; without a default the underlying `TypeError`
(backing field `None`) or `KeyError` (key missing from the backing dict)
propagates. -/
theorem vattr_get_default_spec (va : VirtualAttribute) (n : String)
    (jsonFields : String → Option JsonDict) (h : va.attr_name = some n) :
    (jsonFields va.schemaless_field = none →
      va.get jsonFields = (match va.default with
        | some d => .ok d
        | none => .error .typeError))
  ∧ (∀ dict, jsonFields va.schemaless_field = some dict → alookup dict n = none →
      va.get jsonFields = (match va.default with
        | some d => .ok d
        | none => .error .keyError)) := by
  constructor
  · intro hb
    simp only [VirtualAttribute.get, h, hb]
  · intro dict hb hl
    simp only [VirtualAttribute.get, h, hb, hl]

theorem vattr_get_default_witness :
    VirtualAttribute.get ⟨some "nick", some (.pyStr "anon"), "schemaless", none⟩
      (fun _ => none) = .ok (.pyStr "anon")
  ∧ VirtualAttribute.get ⟨some "nick", none, "schemaless", none⟩
      (fun _ => some []) = .error .keyError := by
  refine ⟨?_, ?_⟩
  · exact (vattr_get_default_spec ⟨some "nick", some (.pyStr "anon"), "schemaless", none⟩
      "nick" (fun _ => none) rfl).1 rfl
  · exact (vattr_get_default_spec ⟨some "nick", none, "schemaless", none⟩
      "nick" (fun _ => some []) rfl).2 [] rfl rfl

/-- The failing configuration for claim C3: a virtual attribute whose
`schemaless_field` is `"extra"`, on an instance where both the `"extra"`
and `"schemaless"` JSON columns hold empty dicts. -/
def c3Va : VirtualAttribute := ⟨some "color", none, "extra", none⟩

def c3Fields : String → Option JsonDict := fun s =>
  if s = "extra" then some [] else if s = "schemaless" then some [] else none

/-- Claim C3 fails on the code: `__set__` writes to the hardcoded
`schemaless` attribute instead of the column named by `schemaless_field`
(which `__get__` and the constructor's docstring use), so assigning and
then reading the attribute raises `KeyError` while the value sits in the
`schemaless` column and the `extra` column is untouched. -/
theorem vattr_set_wrong_field :
    VirtualAttribute.setThenGet c3Va c3Fields (.pyStr "red") = .error .keyError
  ∧ (VirtualAttribute.set c3Va c3Fields (.pyStr "red")).map
      (fun f => (f "schemaless", f "extra"))
      = .ok (some [("color", .pyStr "red")], some []) := by
  exact ⟨rfl, rfl⟩

/-- Claim C4's counterexample input: a `VirtualAttribute` bound under the
underscore-prefixed class-dict key `"_hidden"`. -/
def c4Va : VirtualAttribute := ⟨none, none, "schemaless", none⟩

/-- Claim C4 as stated is false: `_set_va_attr_names` skips keys starting
with an underscore, so a `VirtualAttribute` bound under `"_hidden"` keeps
its unset name rather than getting `name = "_hidden"`. -/
theorem metaclass_underscore_cex :
    ¬ (∀ p ∈ setVaAttrNames [("_hidden", ClassDictEntry.va c4Va)],
        match p.2 with
        | ClassDictEntry.va v => v.name = some p.1
        | ClassDictEntry.other => True) := by
  intro h
  have h1 := h ("_hidden", ClassDictEntry.va c4Va) (by decide)
  simp [c4Va, VirtualAttribute.name] at h1

/-- Claim C4, amended: every `VirtualAttribute` bound under a class-dict
key that does not start with an underscore has its name bound to that key
by the metaclass. -/
theorem metaclass_binds_names (d : List (String × ClassDictEntry)) (k : String)
    (v : VirtualAttribute) (hmem : (k, ClassDictEntry.va v) ∈ setVaAttrNames d)
    (hk : underscored k = false) : v.name = some k := by
  rcases List.mem_map.mp hmem with ⟨q, hq, hfq⟩
  rcases q with ⟨k0, e⟩
  cases e with
  | other => simp at hfq
  | va v0 =>
    by_cases hu : underscored k0
    · simp [hu] at hfq
      rcases hfq with ⟨hk0, hv0⟩
      subst hk0
      rw [hu] at hk
      exact absurd hk (by simp)
    · simp [hu] at hfq
      rcases hfq with ⟨hk0, hv0⟩
      subst hk0
      rw [← hv0]
      rfl

theorem metaclass_binds_names_witness :
    VirtualAttribute.name (VirtualAttribute.setAttrName c4Va "nick") = some "nick" := by
  refine metaclass_binds_names
    [("nick", ClassDictEntry.va c4Va), ("_hidden", ClassDictEntry.va c4Va)]
    "nick" (VirtualAttribute.setAttrName c4Va "nick") ?_ ?_
  · decide
  · decide

/-! ### Claim C1: validate merges both error sources into one structure -/

theorem deepMergeEntry_ne_nil (errors : ErrDict) (k : String) (msgs : List String) :
    deepMergeEntry errors k msgs ≠ [] := by
  unfold deepMergeEntry
  cases h : alookup errors k with
  | none => simp
  | some v =>
    cases errors with
    | nil => simp [alookup] at h
    | cons p rest => simp

theorem mergeValidations_eq_nil_iff (errors : ErrDict)
    (checks : List (String × List String)) :
    mergeValidations errors checks = [] ↔ errors = [] ∧ checks = [] := by
  induction checks generalizing errors with
  | nil => simp [mergeValidations]
  | cons c rest ih =>
    have hstep : mergeValidations errors (c :: rest)
        = mergeValidations (deepMergeEntry errors c.1 c.2) rest := rfl
    rw [hstep]
    constructor
    · intro h
      exact absurd ((ih (deepMergeEntry errors c.1 c.2)).mp h).1
        (deepMergeEntry_ne_nil errors c.1 c.2)
    · rintro ⟨_, h2⟩
      cases h2

/-- Claim C1: with the attribute dict assembled and the per-attribute
validations enumerated, `validate` raises `ValidationError` if and only if
the schema validation of the attribute dict or at least one `Validatable`
check yields errors; the raised error carries the deep merge of the
schema's errors dict with one `(attribute name, messages)` entry per
failing check, and when neither source yields errors `validate` returns
normally. -/
theorem validate_merges_errors (m : ModelInstance) (sv : AttrDict → ErrDict)
    (attrs : AttrDict) (checks : List (String × List String))
    (hA : m.getAttrDict = .ok attrs) (hC : m.runAttrValidations = .ok checks) :
    (m.validate sv
        = .error (.validationError (mergeValidations (sv attrs) checks) attrs)
      ↔ (sv attrs ≠ [] ∨ checks ≠ []))
  ∧ (m.validate sv = .ok () ↔ (sv attrs = [] ∧ checks = [])) := by
  have hv : m.validate sv =
      (if (mergeValidations (sv attrs) checks).isEmpty then .ok ()
        else .error (.validationError (mergeValidations (sv attrs) checks) attrs)) := by
    unfold ModelInstance.validate
    rw [hA, hC]
  by_cases h : (mergeValidations (sv attrs) checks).isEmpty
  · have h0 : mergeValidations (sv attrs) checks = [] := List.isEmpty_iff.mp h
    have h1 := (mergeValidations_eq_nil_iff (sv attrs) checks).mp h0
    rw [hv, if_pos h]
    constructor
    · constructor
      · intro hx
        cases hx
      · intro hx
        rcases hx with hx | hx
        · exact absurd h1.1 hx
        · exact absurd h1.2 hx
    · constructor
      · intro _
        exact h1
      · intro _
        rfl
  · have h0 : mergeValidations (sv attrs) checks ≠ [] := by
      intro hx
      exact h (by rw [hx]; rfl)
    have h1 : ¬ (sv attrs = [] ∧ checks = []) := by
      rintro ⟨a, b⟩
      exact h0 ((mergeValidations_eq_nil_iff (sv attrs) checks).mpr ⟨a, b⟩)
    have h2 : sv attrs ≠ [] ∨ checks ≠ [] := by
      by_cases ha : sv attrs = []
      · right
        intro hb
        exact h1 ⟨ha, hb⟩
      · left
        exact ha
    rw [hv, if_neg h]
    constructor
    · constructor
      · intro _
        exact h2
      · intro _
        rfl
    · constructor
      · intro hx
        cases hx
      · intro hx
        exact absurd hx h1

def w1Inst : ModelInstance := ⟨⟨[], []⟩, fun _ => .pyNone, fun _ => none⟩

def w1Sv : AttrDict → ErrDict := fun _ => [("name", ["is required"])]

theorem validate_merges_errors_witness :
    (w1Inst.validate w1Sv
        = .error (.validationError (mergeValidations (w1Sv []) []) [])
      ↔ (w1Sv [] ≠ [] ∨ ([] : List (String × List String)) ≠ []))
  ∧ (w1Inst.validate w1Sv = .ok ()
      ↔ (w1Sv [] = [] ∧ ([] : List (String × List String)) = [])) :=
  validate_merges_errors w1Inst w1Sv [] [] rfl rfl

/-! ### Claim C2: the generated schema -/

/-- The early-return guard of `_get_column_schema`, negated: the column
contributes a field. -/
def includedColumn (c : Col) : Bool :=
  !(decide (c.name ∈ skipped_fields) || c.isSchemaless)

/-- The field claim C2 predicts for an included column, stated from the
claim's words: a Boolean, Integer, or String column maps to a Boolean,
Integer, or Str field respectively (a String column's declared length
becoming a maximum-length validator equal to that length) and any other
column type to a generic field; a nullable column's field gets
`allow_none=True`, a non-nullable column's field gets `required=True`. -/
def specFieldForColumn (c : Col) : SchemaField :=
  { kind :=
      match c.ctype with
      | .boolean => .boolean
      | .integer => .integer
      | .string len => .str len
      | .other => .generic,
    allow_none := c.nullable,
    required := !c.nullable }

theorem get_column_schema_eq (c : Col) :
    _get_column_schema c
      = if includedColumn c then [(c.name, specFieldForColumn c)] else [] := by
  unfold _get_column_schema includedColumn specFieldForColumn
  by_cases h : c.name ∈ skipped_fields ∨ c.isSchemaless = true
  · rw [if_pos h]
    have hg : (!(decide (c.name ∈ skipped_fields) || c.isSchemaless)) = false := by
      rcases h with h | h <;> simp [h]
    rw [hg]
    rfl
  · rw [if_neg h]
    have hg : (!(decide (c.name ∈ skipped_fields) || c.isSchemaless)) = true := by
      push_neg at h
      simp [h.1, h.2]
    rw [hg]
    cases c.ctype <;> rfl

/-- The schema entries claim C2 predicts for the columns: exactly one per
included column, in order. -/
def includedEntries (model : ModelClass) : List (String × SchemaField) :=
  (model.columns.filter (fun c => includedColumn c)).map
    (fun c => (c.name, specFieldForColumn c))

theorem columnsSchema_eq_entries_fold (cols : List Col)
    (acc : List (String × SchemaField)) :
    cols.foldl
        (fun sd c => (_get_column_schema c).foldl (fun sd p => dictUpdate sd p.1 p.2) sd) acc
      = ((cols.filter (fun c => includedColumn c)).map
          (fun c => (c.name, specFieldForColumn c))).foldl
          (fun sd p => dictUpdate sd p.1 p.2) acc := by
  induction cols generalizing acc with
  | nil => rfl
  | cons c rest ih =>
    rw [List.foldl_cons, get_column_schema_eq]
    by_cases h : includedColumn c
    · rw [if_pos h, List.filter_cons_of_pos (by exact h), List.map_cons, List.foldl_cons]
      exact ih _
    · rw [if_neg h, List.filter_cons_of_neg (by simpa using h)]
      exact ih _

theorem map_fst_pair_const {α : Type} (f : α) : ∀ ns : List String,
    (ns.map (fun n => (n, f))).map Prod.fst = ns
  | [] => rfl
  | a :: t => by
      simp only [List.map_cons]
      exact congrArg (List.cons a) (map_fst_pair_const f t)

/-- Claim C2: the generated schema holds exactly one field per reflected
column except `id` and `SchemalessColumn`s, plus one generic `allow_none`
field per virtual attribute; each included column's field is as the claim
describes, looked up under the column's name, and each virtual attribute's
field is the generic `allow_none` one.  The hypotheses say the involved
names do not collide, as in any well-formed table. -/
theorem generate_schema_spec (model : ModelClass) (ns : List String)
    (hns : vattrNames model.vattrs = .ok ns)
    (hnd1 : ((includedEntries model).map Prod.fst).Nodup)
    (hnd2 : ns.Nodup)
    (hdisj : ∀ n ∈ ns, n ∉ (includedEntries model).map Prod.fst) :
    generate_schema model
      = .ok (includedEntries model ++ ns.map (fun n => (n, vattrField)))
  ∧ ((includedEntries model ++ ns.map (fun n => (n, vattrField))).map Prod.fst
      = (model.columns.filter (fun c => includedColumn c)).map Col.name ++ ns)
  ∧ (∀ c ∈ model.columns, includedColumn c = true →
      alookup (includedEntries model ++ ns.map (fun n => (n, vattrField))) c.name
        = some (specFieldForColumn c))
  ∧ (∀ n ∈ ns,
      alookup (includedEntries model ++ ns.map (fun n => (n, vattrField))) n
        = some vattrField) := by
  have hbase : columnsSchema model.columns = includedEntries model := by
    unfold columnsSchema
    rw [columnsSchema_eq_entries_fold]
    have := foldl_dictUpdate_append (includedEntries model) []
      (by exact hnd1) (by intro p _; rfl)
    unfold includedEntries
    unfold includedEntries at this
    rw [this]
    simp
  have hmapfst : (ns.map (fun n => (n, vattrField))).map Prod.fst = ns :=
    map_fst_pair_const vattrField ns
  have hg : generate_schema model
      = .ok (ns.foldl (fun sd n => dictUpdate sd n vattrField)
          (columnsSchema model.columns)) := by
    unfold generate_schema
    rw [hns]
  have hmain : generate_schema model
      = .ok (includedEntries model ++ ns.map (fun n => (n, vattrField))) := by
    rw [hg, hbase]
    have hfold : ns.foldl (fun sd n => dictUpdate sd n vattrField) (includedEntries model)
        = (ns.map (fun n => (n, vattrField))).foldl
            (fun sd p => dictUpdate sd p.1 p.2) (includedEntries model) := by
      rw [List.foldl_map]
    rw [hfold, foldl_dictUpdate_append]
    · rw [hmapfst]
      exact hnd2
    · intro p hp
      rcases List.mem_map.mp hp with ⟨n, hn, hpn⟩
      rw [← hpn]
      exact (alookup_eq_none_iff _ _).mpr (hdisj n hn)
  have hkeys : ((includedEntries model ++ ns.map (fun n => (n, vattrField))).map Prod.fst
      = (model.columns.filter (fun c => includedColumn c)).map Col.name ++ ns) := by
    rw [List.map_append, hmapfst]
    unfold includedEntries
    rw [List.map_map]
    rfl
  refine ⟨hmain, hkeys, ?_, ?_⟩
  · intro c hc hinc
    apply alookup_append_left
    apply alookup_of_nodup_mem _ _ _ hnd1
    unfold includedEntries
    exact List.mem_map.mpr ⟨c, List.mem_filter.mpr ⟨hc, by simpa using hinc⟩, rfl⟩
  · intro n hn
    rw [alookup_append_right _ _ _ ((alookup_eq_none_iff _ _).mpr (hdisj n hn))]
    apply alookup_of_nodup_mem
    · rw [map_fst_pair_const vattrField ns]
      exact hnd2
    · exact List.mem_map.mpr ⟨n, hn, rfl⟩

def w2Cols : List Col :=
  [⟨"id", .integer, false, false, none⟩,
   ⟨"title", .string (some 255), false, false, none⟩,
   ⟨"count", .integer, true, false, none⟩,
   ⟨"active", .boolean, false, false, none⟩,
   ⟨"payload", .other, true, false, none⟩,
   ⟨"schemaless", .other, true, true, none⟩]

def w2Cls : ModelClass := ⟨w2Cols, [("nick", ⟨some "nick", none, "schemaless", none⟩)]⟩

theorem generate_schema_spec_witness :
    generate_schema w2Cls
      = .ok [("title", ⟨.str (some 255), false, true⟩),
             ("count", ⟨.integer, true, false⟩),
             ("active", ⟨.boolean, false, true⟩),
             ("payload", ⟨.generic, true, false⟩),
             ("nick", vattrField)] :=
  (generate_schema_spec w2Cls ["nick"] rfl (by decide) (by decide) (by decide)).1

/-! ### Claim C10: a failing attribute read escapes validate and as_dict -/

theorem vattrNames_mem (vs : List (String × VirtualAttribute)) (ns : List String)
    (hns : vattrNames vs = .ok ns) (k : String) (va : VirtualAttribute) (n : String)
    (hmem : (k, va) ∈ vs) (hname : va.attr_name = some n) : n ∈ ns := by
  induction vs generalizing ns with
  | nil => cases hmem
  | cons p rest ih =>
    unfold vattrNames at hns
    cases hpa : p.2.attr_name with
    | none =>
      rw [hpa] at hns
      cases hns
    | some n0 =>
      rw [hpa] at hns
      cases hrest : vattrNames rest with
      | error e =>
        rw [hrest] at hns
        cases hns
      | ok tail =>
        rw [hrest] at hns
        injection hns with h
        subst h
        rcases List.mem_cons.mp hmem with heq | htail
        · have hp2 : va.attr_name = some n0 := by
            rw [← heq] at hpa
            exact hpa
          rw [hname] at hp2
          injection hp2 with h2
          rw [← h2]
          exact List.mem_cons_self _ _
        · exact List.mem_cons_of_mem n0 (ih tail hrest htail)

theorem vattrNames_bound (vs : List (String × VirtualAttribute)) (ns : List String)
    (hns : vattrNames vs = .ok ns) : ∀ p ∈ vs, p.2.attr_name.isSome := by
  induction vs generalizing ns with
  | nil =>
    intro p hp
    cases hp
  | cons q rest ih =>
    intro p hp
    unfold vattrNames at hns
    cases hqa : q.2.attr_name with
    | none =>
      rw [hqa] at hns
      cases hns
    | some n0 =>
      rw [hqa] at hns
      cases hrest : vattrNames rest with
      | error e =>
        rw [hrest] at hns
        cases hns
      | ok tail =>
        rcases List.mem_cons.mp hp with heq | htail
        · subst heq
          rw [hqa]
          rfl
        · exact ih tail hrest p htail

theorem vattr_get_ne_attrError (va : VirtualAttribute) (n : String)
    (jf : String → Option JsonDict) (h : va.attr_name = some n) :
    va.get jf ≠ .error .attributeError := by
  intro hcontra
  simp only [VirtualAttribute.get, h] at hcontra
  cases hb : jf va.schemaless_field with
  | none =>
    simp only [hb] at hcontra
    cases hd : va.default with
    | some d =>
      simp only [hd] at hcontra
      cases hcontra
    | none =>
      simp only [hd] at hcontra
      cases hcontra
  | some dict =>
    simp only [hb] at hcontra
    cases hl : alookup dict n with
    | some v =>
      simp only [hl] at hcontra
      cases hcontra
    | none =>
      simp only [hl] at hcontra
      cases hd : va.default with
      | some d =>
        simp only [hd] at hcontra
        cases hcontra
      | none =>
        simp only [hd] at hcontra
        cases hcontra

theorem getattr_ne_attrError (m : ModelInstance) (k : String)
    (hb : ∀ p ∈ m.cls.vattrs, p.2.attr_name.isSome) :
    m.getattr k ≠ .error .attributeError := by
  unfold ModelInstance.getattr
  cases hf : m.cls.vattrs.find? (fun p => p.1 = k) with
  | none => simp
  | some p =>
    have hp : p ∈ m.cls.vattrs := List.mem_of_find?_eq_some hf
    cases hn : p.2.attr_name with
    | none =>
      have := hb p hp
      rw [hn] at this
      cases this
    | some n => exact vattr_get_ne_attrError p.2 n m.jsonFields hn

theorem readAttrs_error_of_mem (m : ModelInstance) (sd : List (String × SchemaField))
    (n : String) (hkey : n ∈ sd.map Prod.fst) (e0 : PyErr)
    (hget : m.getattr n = .error e0) : ∃ e, readAttrs m sd = .error e := by
  induction sd with
  | nil => cases hkey
  | cons p rest ih =>
    cases hg : m.getattr p.1 with
    | error e1 =>
      refine ⟨e1, ?_⟩
      unfold readAttrs
      rw [hg]
    | ok v =>
      rw [List.map_cons] at hkey
      rcases List.mem_cons.mp hkey with heq | htail
      · rw [heq] at hget
        rw [hget] at hg
        cases hg
      · rcases ih htail with ⟨e, hrest⟩
        refine ⟨e, ?_⟩
        unfold readAttrs
        rw [hg, hrest]

theorem readAttrs_error_src (m : ModelInstance) (sd : List (String × SchemaField))
    (e : PyErr) (h : readAttrs m sd = .error e) : ∃ k, m.getattr k = .error e := by
  induction sd with
  | nil =>
    unfold readAttrs at h
    cases h
  | cons p rest ih =>
    unfold readAttrs at h
    cases hg : m.getattr p.1 with
    | error e1 =>
      rw [hg] at h
      injection h with h1
      subst h1
      exact ⟨p.1, hg⟩
    | ok v =>
      rw [hg] at h
      cases hr : readAttrs m rest with
      | error e1 =>
        rw [hr] at h
        injection h with h1
        subst h1
        exact ih hr
      | ok tail =>
        rw [hr] at h
        cases h

/-- Claim C10: on an instance with a defaultless virtual attribute whose
value was never set, assembling the attribute dict raises the underlying
`KeyError` or `TypeError`, and both `validate` and `as_dict` let that
Python error escape instead of reporting a `ValidationError`, because the
attribute dict reads every schema field unconditionally. -/
theorem validate_attr_read_escapes (m : ModelInstance) (n : String)
    (va : VirtualAttribute) (ns : List String) (sv : AttrDict → ErrDict) (idv : PyValue)
    (hns : vattrNames m.cls.vattrs = .ok ns)
    (hfind : m.cls.vattrs.find? (fun p => p.1 = n) = some (n, va))
    (hmem : (n, va) ∈ m.cls.vattrs)
    (hname : va.attr_name = some n)
    (hnodef : va.default = none)
    (hunset : m.jsonFields va.schemaless_field = none
      ∨ ∃ d, m.jsonFields va.schemaless_field = some d ∧ alookup d n = none)
    (hid : m.getattr "id" = .ok idv) :
    ∃ e : PyErr, e ≠ .attributeError
      ∧ m.getAttrDict = .error e
      ∧ m.validate sv = .error (.pyErr e)
      ∧ m.asDict = .error e := by
  have hdisp : m.getattr n = va.get m.jsonFields := by
    unfold ModelInstance.getattr
    rw [hfind]
  have hgetn : ∃ e0, m.getattr n = .error e0 := by
    rcases hunset with hb | ⟨d, hb, hl⟩
    · refine ⟨.typeError, ?_⟩
      rw [hdisp]
      simp only [VirtualAttribute.get, hname, hb, hnodef]
    · refine ⟨.keyError, ?_⟩
      rw [hdisp]
      simp only [VirtualAttribute.get, hname, hb, hl, hnodef]
  rcases hgetn with ⟨e0, hgetn⟩
  have hg : generate_schema m.cls
      = .ok (ns.foldl (fun sd n => dictUpdate sd n vattrField)
          (columnsSchema m.cls.columns)) := by
    unfold generate_schema
    rw [hns]
  have hnkey : n ∈ ((ns.foldl (fun sd n => dictUpdate sd n vattrField)
      (columnsSchema m.cls.columns)).map Prod.fst) :=
    mem_keys_foldl_dictUpdate ns vattrField _ n
      (vattrNames_mem m.cls.vattrs ns hns n va n hmem hname)
  rcases readAttrs_error_of_mem m _ n hnkey e0 hgetn with ⟨e, hread⟩
  have hga : m.getAttrDict = .error e := by
    unfold ModelInstance.getAttrDict
    rw [hg]
    exact hread
  have hbound := vattrNames_bound m.cls.vattrs ns hns
  rcases readAttrs_error_src m _ e hread with ⟨k, hk⟩
  have hne : e ≠ .attributeError := by
    intro hx
    subst hx
    exact getattr_ne_attrError m k hbound hk
  refine ⟨e, hne, hga, ?_, ?_⟩
  · unfold ModelInstance.validate
    rw [hga]
  · unfold ModelInstance.asDict
    rw [hid, hga]

def w10Va : VirtualAttribute := ⟨some "nick", none, "schemaless", none⟩

def w10Cls : ModelClass := ⟨[], [("nick", w10Va)]⟩

def w10Inst : ModelInstance := ⟨w10Cls, fun _ => .pyInt 7, fun _ => none⟩

theorem validate_attr_read_escapes_witness :
    ∃ e : PyErr, e ≠ .attributeError
      ∧ w10Inst.getAttrDict = .error e
      ∧ w10Inst.validate (fun _ => []) = .error (.pyErr e)
      ∧ w10Inst.asDict = .error e :=
  validate_attr_read_escapes w10Inst "nick" w10Va ["nick"] (fun _ => []) (.pyInt 7)
    rfl rfl (by decide) rfl rfl (Or.inl rfl) rfl

end Pyvoog
